import Mathlib

/-!
The domain-definition callback of usbredir-hook (`main.go`).

A shallow embedding of `src/main.go` (package `main` of kincl/usbredir-hook).

The source is one Go file.  Everything it calls that lives outside the repository
(`encoding/json`, `encoding/xml`, `libvirtxml`, `gousb`) is taken as a parameter,
gathered in the structure `Env`; the two standard-library string functions whose
results decide the control flow (`strings.Split` with the separator `":"` and
`strconv.ParseUint` with base 16 and bit size 16) are transcribed from the Go
standard library.

Go values are embedded as follows.

* `[]byte` is `List UInt8`; the descriptors are opaque payloads.
* `string` is `String`, read as its list of characters.  The annotation comes out of
  `json.Unmarshal`, hence is valid UTF-8; every byte of a multi-byte character is
  `≥ 0x80`, so it is neither `':'` nor a digit, exactly like the character it encodes.
* `uint64`, `uint16`, `uint`, `gousb.ID` are `Nat`, with explicit `% 2^w`.
* `int` is `Int`.
* a pointer that may be nil is an `Option`.
* a `panic` is the constructor `Outcome.panic`; deferred calls are kept on an explicit
  stack that is run when the function is left, by `return` or by `panic`.
-/

namespace UsbredirHook

/-! Go standard library: `strings.Split`, `strconv.ParseUint` -/

/-- The Go call `strings.Split(s, string(sep))` for a one-byte separator: the pieces of
`s` between the occurrences of `sep`; there is always at least one piece. -/
def stringsSplit (sep : Char) : List Char → List (List Char)
  | [] => [[]]
  | c :: cs =>
    if c = sep then [] :: stringsSplit sep cs
    else
      match stringsSplit sep cs with
      | [] => [[c]]
      | piece :: pieces => (c :: piece) :: pieces

/-- The two error kinds of `strconv.NumError` that `ParseUint` produces. -/
inductive NumError where
  | ErrSyntax
  | ErrRange
  | ErrBase
  | ErrBitSize
  deriving DecidableEq, Repr

/-- The function `lower` of `strconv`: `c | ('x' - 'X')`. -/
def lower (c : Nat) : Nat := c ||| 0x20

/-- The digit switch in the loop of `strconv.ParseUint` (for an explicit base, where
`'_'` is not special): the value of the byte `c` as a digit, `none` for the
`default:` branch. -/
def digitOf (c : Nat) : Option Nat :=
  if 48 ≤ c ∧ c ≤ 57 then some (c - 48)
  else if 97 ≤ lower c ∧ lower c ≤ 122 then some (lower c - 97 + 10)
  else none

/-- The loop of `strconv.ParseUint` over the bytes of `s`, `n` being the `uint64`
accumulator.  It returns the value and the error, as the Go function does. -/
def parseUintLoop (base cutoff maxVal : Nat) : List Char → Nat → Nat × Option NumError
  | [], n => (n, none)
  | c :: cs, n =>
    match digitOf c.toNat with
    | none => (0, some NumError.ErrSyntax)
    | some d =>
      if d ≥ base then (0, some NumError.ErrSyntax)
      else if n ≥ cutoff then (maxVal, some NumError.ErrRange)
      else
        let n0 := (n * base) % 2 ^ 64
        let n1 := (n0 + d) % 2 ^ 64
        if n1 < n0 ∨ n1 > maxVal then (maxVal, some NumError.ErrRange)
        else parseUintLoop base cutoff maxVal cs n1

/-- The Go function `strconv.ParseUint(s, base, bitSize)` for an explicit base
(`2 ≤ base ≤ 36`; the prefix sniffing of `base == 0` is not reachable from this
program, which passes 16, and is reported here as a base error). -/
def ParseUint (s : List Char) (base bitSize : Nat) : Nat × Option NumError :=
  if s = [] then (0, some NumError.ErrSyntax)
  else if ¬ (2 ≤ base ∧ base ≤ 36) then (0, some NumError.ErrBase)
  else if bitSize > 64 then (0, some NumError.ErrBitSize)
  else
    let bitSize := if bitSize = 0 then 64 else bitSize
    let cutoff := (2 ^ 64 - 1) / base + 1
    let maxVal := 2 ^ bitSize - 1
    parseUintLoop base cutoff maxVal s 0

/-- The Go conversion `uint16(x)` of a `uint64`. -/
def uint16 (x : Nat) : Nat := x % 2 ^ 16

/-- The Go conversion `uint(x)` of an `int` (64-bit). -/
def uint (x : Int) : Nat := (x % 2 ^ 64).toNat

/-! The data of the program -/

/-- The Go type `[]byte`. -/
abbrev Bytes := List UInt8

/-- An `error` value; `Option Error` is an `error` that may be nil. -/
abbrev Error := String

/-- The Go type `gousb.ID`, a `uint16`. -/
abbrev ID := Nat

/-- How a Go function is left: by `return` with a value, or by `panic`. -/
inductive Outcome (α : Type) where
  | ret (value : α)
  | panic (msg : String)
  deriving DecidableEq, Repr

/-- The part of `vmSchema.VirtualMachineInstance` the program reads: the annotations,
a Go `map[string]string`, as an association list read with `List.lookup`. -/
structure VirtualMachineInstance where
  Annotations : List (String × String)
  deriving DecidableEq, Repr

/-- The Go method `GetAnnotations`. -/
def VirtualMachineInstance.GetAnnotations (vmi : VirtualMachineInstance) :
    List (String × String) :=
  vmi.Annotations

/-- The fields of `gousb.DeviceDesc` the program reads. -/
structure DeviceDesc where
  Bus : Int
  Address : Int
  Vendor : ID
  Product : ID
  deriving DecidableEq, Repr

/-- A `*gousb.Device`: an open handle (identified by a number) and its descriptor. -/
structure Device where
  handle : Nat
  Desc : DeviceDesc
  deriving DecidableEq, Repr

/-- The Go type `libvirtxml.DomainAddressUSB`. -/
structure DomainAddressUSB where
  Bus : Option Nat
  Port : String
  Device : Option Nat
  deriving DecidableEq, Repr

/-- The Go type `libvirtxml.DomainHostdevSubsysUSBSource`. -/
structure DomainHostdevSubsysUSBSource where
  GuestReset : String
  Address : Option DomainAddressUSB
  deriving DecidableEq, Repr

/-- The Go type `libvirtxml.DomainHostdevSubsysUSB`. -/
structure DomainHostdevSubsysUSB where
  Source : Option DomainHostdevSubsysUSBSource
  deriving DecidableEq, Repr

/-- The Go type `libvirtxml.DomainHostdev`.  `others` stands for all its fields
besides `SubsysUSB`; `none` is their zero value. -/
structure DomainHostdev (F : Type) where
  SubsysUSB : Option DomainHostdevSubsysUSB
  others : Option F
  deriving DecidableEq, Repr

/-- The Go type `libvirtxml.DomainDeviceList`.  `others` stands for all its fields
besides `Hostdevs`. -/
structure DomainDeviceList (F : Type) where
  Hostdevs : List (DomainHostdev F)
  others : Option F
  deriving DecidableEq, Repr

/-- The Go type `libvirtxml.Domain`.  `Devices` is a pointer, nil when the descriptor
has no devices section; `others` stands for all the other fields. -/
structure Domain (F : Type) where
  Devices : Option (DomainDeviceList F)
  others : Option F
  deriving DecidableEq, Repr

/-- What the program does to the USB library, in order. -/
inductive Event where
  | NewContext
  | OpenDevices (opened : List Nat)
  | DeviceClose (handle : Nat)
  | ContextClose
  deriving DecidableEq, Repr

/-- A call of a function: how it is left and what it did to the USB library. -/
structure Run (α : Type) where
  outcome : Outcome α
  events : List Event
  deriving DecidableEq, Repr

/-- The libraries the program calls, as parameters.

* `jsonUnmarshal` is `json.Unmarshal(vmiJSON, &vmiSpec)` into a zero
  `VirtualMachineInstance`.
* `xmlUnmarshal` is `xml.Unmarshal(domainXML, &domainSpec)` into a zero
  `libvirtxml.Domain`: the value left in `domainSpec` and the error.
* `xmlMarshal` is `xml.Marshal(domainSpec)`.
* `OpenDevices` is `ctx.OpenDevices(opener)` on a fresh context: the devices it opened
  and the error; both may be non-trivial at once. -/
structure Env (F : Type) where
  jsonUnmarshal : Bytes → Except Error VirtualMachineInstance
  xmlUnmarshal : Bytes → Domain F × Option Error
  xmlMarshal : Domain F → Except Error Bytes
  OpenDevices : (DeviceDesc → Bool) → List Device × Option Error

/-! The program -/

/-- The constant `vendorProductAnnotation`. -/
def vendorProductAnnotation : String := "usbredir.vm.kubevirt.io/vendorProduct"

/-- The type `infoServer`. -/
structure infoServer where
  Version : String
  deriving DecidableEq, Repr

/-- The Go type `hooksInfo.HookPoint`. -/
structure HookPoint where
  Name : String
  Priority : Int
  deriving DecidableEq, Repr

/-- The Go type `hooksInfo.InfoResult`. -/
structure InfoResult where
  Name : String
  Versions : List String
  HookPoints : List HookPoint
  deriving DecidableEq, Repr

/-- The Go type `hooksInfo.InfoParams`; the program reads none of it. -/
structure InfoParams where
  Version : String
  deriving DecidableEq, Repr

/-- The constant `hooksInfo.OnDefineDomainHookPointName`. -/
def OnDefineDomainHookPointName : String := "OnDefineDomain"

/-- The method `infoServer.Info` (lines 58-73): the result pointer and the error. -/
def infoServer.Info (s : infoServer) (_params : Option InfoParams) :
    Option InfoResult × Option Error :=
  (some
    { Name := "smbios"
      Versions := [s.Version]
      HookPoints := [{ Name := OnDefineDomainHookPointName, Priority := 0 }] },
   none)

/-- Lines 244-247 of `main`: the version check and the info server that is
registered. -/
def mainInfoServer (version : String) : Outcome infoServer :=
  if version = "" then
    Outcome.panic "usage: \n        /usbredir-hook --version v1alpha1|v1alpha2"
  else Outcome.ret { Version := version }

/-- The closure passed to `ctx.OpenDevices` (lines 176-180). -/
def opener (vid pid : ID) (desc : DeviceDesc) : Bool :=
  desc.Vendor == vid && desc.Product == pid

/-- The value `usbDevice` built at lines 198-210 from the chosen device. -/
def usbDevice (F : Type) (dev : Device) : DomainHostdev F :=
  let bus := uint dev.Desc.Bus
  let device := uint dev.Desc.Address
  { SubsysUSB := some
      { Source := some
          { GuestReset := ""
            Address := some { Bus := some bus, Port := "", Device := some device } } }
    others := none }

/-- Lines 212-214: `domainSpec.Devices.Hostdevs` is read, `usbDevice` appended and the
slice stored back.  `none` is the nil-pointer dereference of `domainSpec.Devices`. -/
def appendHostdev {F : Type} (domainSpec : Domain F) (entry : DomainHostdev F) :
    Option (Domain F) :=
  match domainSpec.Devices with
  | none => none
  | some devices =>
    let hostdevs := devices.Hostdevs
    let hostdevs := hostdevs ++ [entry]
    some { domainSpec with Devices := some { devices with Hostdevs := hostdevs } }

/-- Lines 122-127 of `onDefineDomain`: the annotation is split at `":"`, the pieces 0
and 1 are parsed as base-16 numbers of 16 bits, the errors dropped.  Indexing a
missing piece panics. -/
def parseVendorProduct (annotationValue : String) : Outcome (ID × ID) :=
  let vpid := stringsSplit ':' annotationValue.toList
  match vpid with
  | [] => Outcome.panic "index out of range [0] with length 0"
  | vpid0 :: rest =>
    let vidu64 := (ParseUint vpid0 16 16).1
    let vid := uint16 vidu64
    match rest with
    | [] => Outcome.panic "index out of range [1] with length 1"
    | vpid1 :: _ =>
      let pidu64 := (ParseUint vpid1 16 16).1
      let pid := uint16 pidu64
      Outcome.ret (vid, pid)

/-- Lines 216-223: the descriptor is encoded; when that fails the original bytes are
returned.  The error returned is nil either way. -/
def marshalOrOriginal {F : Type} (env : Env F) (domainXML : Bytes) (domainSpec : Domain F) :
    Bytes × Option Error :=
  match env.xmlMarshal domainSpec with
  | Except.error _ => (domainXML, none)
  | Except.ok newDomainXML => (newDomainXML, none)

/-- Lines 167-223 of `onDefineDomain`: decode the descriptor, enumerate, append the
entry of the first device, encode.  The deferred calls are pushed on `defers` in the
order of the source and run, last first, when the function is left. -/
def attachDevice {F : Type} (env : Env F) (domainXML : Bytes) (vid pid : ID) :
    Run (Bytes × Option Error) :=
  let domainSpec := (env.xmlUnmarshal domainXML).1
  let defers : List Event := [Event.ContextClose]
  let (devs, err) := env.OpenDevices (opener vid pid)
  let defers := devs.foldl (fun stack d => Event.DeviceClose d.handle :: stack) defers
  let done : List Event :=
    [Event.NewContext, Event.OpenDevices (devs.map Device.handle)]
  let outcome : Outcome (Bytes × Option Error) :=
    if err.isSome then Outcome.ret (domainXML, none)
    else
      match devs with
      | [] => Outcome.ret (domainXML, none)
      | dev :: _ =>
        match appendHostdev domainSpec (usbDevice F dev) with
        | none => Outcome.panic "invalid memory address or nil pointer dereference"
        | some domainSpec => Outcome.ret (marshalOrOriginal env domainXML domainSpec)
  { outcome := outcome, events := done ++ defers }

/-- The function `onDefineDomain` (lines 105-224). -/
def onDefineDomain {F : Type} (env : Env F) (vmiJSON domainXML : Bytes) :
    Run (Bytes × Option Error) :=
  match env.jsonUnmarshal vmiJSON with
  | Except.error err => { outcome := Outcome.panic err, events := [] }
  | Except.ok vmiSpec =>
    let annotations := vmiSpec.GetAnnotations
    match annotations.lookup vendorProductAnnotation with
    | none => { outcome := Outcome.ret (domainXML, none), events := [] }
    | some annotationValue =>
      match parseVendorProduct annotationValue with
      | Outcome.panic msg => { outcome := Outcome.panic msg, events := [] }
      | Outcome.ret (vid, pid) => attachDevice env domainXML vid pid

/-- The Go types `hooksV1alpha1.OnDefineDomainParams` and
`hooksV1alpha2.OnDefineDomainParams`: both carry the same two fields. -/
structure OnDefineDomainParams where
  Vmi : Bytes
  DomainXML : Bytes
  deriving DecidableEq, Repr

/-- The generated getter `GetVmi`, nil-safe. -/
def OnDefineDomainParams.GetVmi : Option OnDefineDomainParams → Bytes
  | none => []
  | some p => p.Vmi

/-- The generated getter `GetDomainXML`, nil-safe. -/
def OnDefineDomainParams.GetDomainXML : Option OnDefineDomainParams → Bytes
  | none => []
  | some p => p.DomainXML

/-- The Go type `hooksV1alpha1.OnDefineDomainResult`. -/
structure V1alpha1Result where
  DomainXML : Bytes
  deriving DecidableEq, Repr

/-- The Go type `hooksV1alpha2.OnDefineDomainResult`. -/
structure V1alpha2Result where
  DomainXML : Bytes
  deriving DecidableEq, Repr

/-- The method `v1alpha2Server.OnDefineDomain` (lines 78-87). -/
def v1alpha2Server.OnDefineDomain {F : Type} (env : Env F)
    (params : Option OnDefineDomainParams) :
    Run (Option V1alpha2Result × Option Error) :=
  let r := onDefineDomain env (OnDefineDomainParams.GetVmi params)
    (OnDefineDomainParams.GetDomainXML params)
  match r.outcome with
  | Outcome.panic msg => { outcome := Outcome.panic msg, events := r.events }
  | Outcome.ret (newDomainXML, err) =>
    match err with
    | some e => { outcome := Outcome.ret (none, some e), events := r.events }
    | none =>
      { outcome := Outcome.ret (some { DomainXML := newDomainXML }, none)
        events := r.events }

/-- The method `v1alpha1Server.OnDefineDomain` (lines 94-103). -/
def v1alpha1Server.OnDefineDomain {F : Type} (env : Env F)
    (params : Option OnDefineDomainParams) :
    Run (Option V1alpha1Result × Option Error) :=
  let r := onDefineDomain env (OnDefineDomainParams.GetVmi params)
    (OnDefineDomainParams.GetDomainXML params)
  match r.outcome with
  | Outcome.panic msg => { outcome := Outcome.panic msg, events := r.events }
  | Outcome.ret (newDomainXML, err) =>
    match err with
    | some e => { outcome := Outcome.ret (none, some e), events := r.events }
    | none =>
      { outcome := Outcome.ret (some { DomainXML := newDomainXML }, none)
        events := r.events }

/-! Handles that are open after a sequence of events -/

/-- The device handles left open by a sequence of events, starting from `open0`:
`OpenDevices` opens the handles it returns, `DeviceClose` closes one. -/
def openHandles : List Event → List Nat → List Nat
  | [], open0 => open0
  | Event.OpenDevices hs :: es, open0 => openHandles es (open0 ++ hs)
  | Event.DeviceClose h :: es, open0 => openHandles es (open0.erase h)
  | _ :: es, open0 => openHandles es open0

/-- Whether a USB context is open after a sequence of events, starting from `ctx0`. -/
def contextOpen : List Event → Bool → Bool
  | [], ctx0 => ctx0
  | Event.NewContext :: es, _ => contextOpen es true
  | Event.ContextClose :: es, _ => contextOpen es false
  | _ :: es, ctx0 => contextOpen es ctx0

/-! A concrete host, for examples -/

/-- A host whose bus carries the devices `bus`: enumeration opens exactly those the
opener accepts, in bus order, and reports `err`. -/
def scanBus (bus : List Device) (err : Option Error) (f : DeviceDesc → Bool) :
    List Device × Option Error :=
  (bus.filter (fun d => f d.Desc), err)

/-- An environment for examples: the VMI has the annotations `annotations`, the
descriptor decodes to `dom`, encoding yields `encoded`, the bus carries `bus`. -/
def exampleEnv (annotations : List (String × String)) (dom : Domain Unit)
    (encoded : Domain Unit → Except Error Bytes) (bus : List Device)
    (err : Option Error) : Env Unit :=
  { jsonUnmarshal := fun _ => Except.ok { Annotations := annotations }
    xmlUnmarshal := fun _ => (dom, none)
    xmlMarshal := encoded
    OpenDevices := scanBus bus err }

/-! Reading a field as a hexadecimal numeral -/

/-- The value of a character as a hexadecimal digit: `0-9`, `a-f`, `A-F`. -/
def hexDigitValue (c : Char) : Option Nat :=
  if 48 ≤ c.toNat ∧ c.toNat ≤ 57 then some (c.toNat - 48)
  else if 97 ≤ c.toNat ∧ c.toNat ≤ 102 then some (c.toNat - 87)
  else if 65 ≤ c.toNat ∧ c.toNat ≤ 70 then some (c.toNat - 55)
  else none

/-- Whether a character is a hexadecimal digit. -/
def isHexDigit (c : Char) : Bool := (hexDigitValue c).isSome

/-- The number a string of hexadecimal digits denotes, continuing from `n`. -/
def hexValueFrom (n : Nat) (s : List Char) : Nat :=
  s.foldl (fun acc c => 16 * acc + (hexDigitValue c).getD 0) n

/-- The number a string of hexadecimal digits denotes. -/
def hexValue (s : List Char) : Nat := hexValueFrom 0 s

/-- The hexadecimal digits a field starts with. -/
def leadingHex (s : List Char) : List Char := s.takeWhile isHexDigit

/-- The identifier a field stands for: 0 for an empty field, `0xFFFF` when
its leading hexadecimal digits already exceed 16 bits, 0 when a character that is not
a hexadecimal digit comes before that, and the value of the numeral otherwise. -/
def fieldID (s : List Char) : Nat :=
  if s = [] then 0
  else if hexValue (leadingHex s) > 0xFFFF then 0xFFFF
  else if leadingHex s ≠ s then 0
  else hexValue s

/-- The digit test of the loop, with the check against the base 16 folded in. -/
def digit16 (n : Nat) : Option Nat :=
  match digitOf n with
  | some d => if d ≥ 16 then none else some d
  | none => none

/-- A hexadecimal numeral for `v`: one or more hexadecimal digits, of either case,
leading zeros allowed, no prefix, denoting `v`. -/
def IsHexNumeral (s : List Char) (v : Nat) : Prop :=
  s ≠ [] ∧ (∀ c ∈ s, isHexDigit c = true) ∧ hexValue s = v

/-! Example data -/

/-- A device with vendor `0x1234` and product `0xbeef` at bus 2, address 5. -/
def deviceAt2_5 : Device :=
  { handle := 7, Desc := { Bus := 2, Address := 5, Vendor := 0x1234, Product := 0xbeef } }

/-- A second device with the same vendor and product, at bus 3, address 1. -/
def deviceAt3_1 : Device :=
  { handle := 8, Desc := { Bus := 3, Address := 1, Vendor := 0x1234, Product := 0xbeef } }

/-- A device with vendor `0xffff` and product `0xbeef` at bus 1, address 4. -/
def deviceFFFF : Device :=
  { handle := 9, Desc := { Bus := 1, Address := 4, Vendor := 0xffff, Product := 0xbeef } }

/-- A device with vendor 0 and product `0xbeef` at bus 1, address 6. -/
def deviceZero : Device :=
  { handle := 10, Desc := { Bus := 1, Address := 6, Vendor := 0, Product := 0xbeef } }

/-- A decoded descriptor with an empty devices section. -/
def emptyDevices : Domain Unit := { Devices := some { Hostdevs := [], others := none }, others := none }

/-- A decoded descriptor without a devices section. -/
def noDevices : Domain Unit := { Devices := none, others := none }

/-- An encoder for examples: one byte, the number of host-device entries. -/
def countEncoder (d : Domain Unit) : Except Error Bytes :=
  match d.Devices with
  | none => Except.ok [0]
  | some devices => Except.ok [UInt8.ofNat devices.Hostdevs.length]

/-- The bytes the example encoder `addressEncoder` writes for one host-device entry:
the bus and the device number of its USB source address, 255 when it has none. -/
def entryBytes (e : DomainHostdev Unit) : Bytes :=
  match e.SubsysUSB with
  | none => [255]
  | some usb =>
    match usb.Source with
    | none => [255]
    | some source =>
      match source.Address with
      | none => [255]
      | some address =>
        match address.Bus, address.Device with
        | some bus, some device => [UInt8.ofNat bus, UInt8.ofNat device]
        | _, _ => [255]

/-- An encoder for examples: the bus and device numbers of the entries, in order. -/
def addressEncoder (d : Domain Unit) : Except Error Bytes :=
  match d.Devices with
  | none => Except.ok []
  | some devices => Except.ok (devices.Hostdevs.map entryBytes).flatten

/-- An encoder for examples that always fails. -/
def failingEncoder (_d : Domain Unit) : Except Error Bytes := Except.error "marshal"

/-- The annotations of a VMI that asks for `value`. -/
def annotated (value : String) : List (String × String) :=
  [("kubevirt.io/domain", "vm"), ( vendorProductAnnotation, value)]

/-! Lemmas on `strings.Split` -/

theorem stringsSplit_ne_nil (sep : Char) (l : List Char) : stringsSplit sep l ≠ [] := by
  cases l with
  | nil => simp [stringsSplit]
  | cons c cs =>
    unfold stringsSplit
    split
    · simp
    · split <;> simp

theorem stringsSplit_of_not_mem (sep : Char) (l : List Char) (h : sep ∉ l) :
    stringsSplit sep l = [l] := by
  induction l with
  | nil => rfl
  | cons c cs ih =>
    have hc : c ≠ sep := fun e => h (by simp [e])
    have hcs : sep ∉ cs := fun e => h (List.mem_cons_of_mem _ e)
    simp [stringsSplit, hc, ih hcs]

theorem stringsSplit_append (sep : Char) (a b : List Char) (h : sep ∉ a) :
    stringsSplit sep (a ++ sep :: b) = a :: stringsSplit sep b := by
  induction a with
  | nil => simp [stringsSplit]
  | cons c cs ih =>
    have hc : c ≠ sep := fun e => h (by simp [e])
    have hcs : sep ∉ cs := fun e => h (List.mem_cons_of_mem _ e)
    simp [stringsSplit, hc, ih hcs]

theorem stringsSplit_of_mem (sep : Char) (l : List Char) (h : sep ∈ l) :
    ∃ a b rest, stringsSplit sep l = a :: b :: rest := by
  induction l with
  | nil => simp at h
  | cons c cs ih =>
    by_cases hc : c = sep
    · obtain ⟨p, ps, hp⟩ := List.exists_cons_of_ne_nil (stringsSplit_ne_nil sep cs)
      exact ⟨[], p, ps, by simp [stringsSplit, hc, hp]⟩
    · have hcs : sep ∈ cs := by
        rcases List.mem_cons.1 h with e | e
        · exact absurd e.symm hc
        · exact e
      obtain ⟨a, b, rest, hab⟩ := ih hcs
      exact ⟨c :: a, b, rest, by simp [stringsSplit, hc, hab]⟩

/-! Lemmas on `strconv.ParseUint` -/

theorem lower_ge (n : Nat) : n ≤ lower n := by
  unfold lower
  apply Nat.le_of_testBit
  intro i hi
  simp [Nat.testBit_or, hi]

theorem digit16_small : ∀ n : Fin 128,
    digit16 n.val =
      (if 48 ≤ n.val ∧ n.val ≤ 57 then some (n.val - 48)
       else if 97 ≤ n.val ∧ n.val ≤ 102 then some (n.val - 87)
       else if 65 ≤ n.val ∧ n.val ≤ 70 then some (n.val - 55)
       else none) := by
  decide

theorem digit16_eq (c : Char) : digit16 c.toNat = hexDigitValue c := by
  by_cases h : c.toNat < 128
  · have := digit16_small ⟨c.toNat, h⟩
    simpa [hexDigitValue] using this
  · have h1 : 128 ≤ c.toNat := Nat.le_of_not_lt h
    have h2 : 128 ≤ lower c.toNat := Nat.le_trans h1 (lower_ge _)
    have e1 : digit16 c.toNat = none := by
      unfold digit16 digitOf
      rw [if_neg (by omega), if_neg (by omega)]
    have e2 : hexDigitValue c = none := by
      unfold hexDigitValue
      rw [if_neg (by omega), if_neg (by omega), if_neg (by omega)]
    rw [e1, e2]

theorem hexDigitValue_lt (c : Char) (d : Nat) (h : hexDigitValue c = some d) : d < 16 := by
  unfold hexDigitValue at h
  split at h
  · injection h with h; omega
  · split at h
    · injection h with h; omega
    · split at h
      · injection h with h; omega
      · cases h

theorem le_hexValueFrom (s : List Char) (n : Nat) : n ≤ hexValueFrom n s := by
  induction s generalizing n with
  | nil => simp [hexValueFrom]
  | cons c cs ih =>
    have := ih (16 * n + (hexDigitValue c).getD 0)
    simp only [hexValueFrom, List.foldl_cons] at this ⊢
    omega

theorem parseUintLoop_step (c : Char) (cs : List Char) (n : Nat) :
    parseUintLoop 16 (2 ^ 60) 65535 (c :: cs) n =
      match digit16 c.toNat with
      | none => (0, some NumError.ErrSyntax)
      | some d =>
        if n ≥ 2 ^ 60 then (65535, some NumError.ErrRange)
        else if (n * 16 % 2 ^ 64 + d) % 2 ^ 64 < n * 16 % 2 ^ 64 ∨
            (n * 16 % 2 ^ 64 + d) % 2 ^ 64 > 65535 then (65535, some NumError.ErrRange)
        else parseUintLoop 16 (2 ^ 60) 65535 cs ((n * 16 % 2 ^ 64 + d) % 2 ^ 64) := by
  rw [parseUintLoop]
  unfold digit16
  cases hd : digitOf c.toNat with
  | none => simp
  | some d =>
    by_cases h16 : d ≥ 16
    · simp [h16]
    · simp [h16]

/-- The loop of `ParseUint(_, 16, 16)` from an accumulator of at most 16 bits. -/
theorem parseUintLoop_eq (s : List Char) (n : Nat) (hn : n ≤ 65535) :
    parseUintLoop 16 (2 ^ 60) 65535 s n =
      if hexValueFrom n (leadingHex s) > 65535 then (65535, some NumError.ErrRange)
      else if leadingHex s ≠ s then (0, some NumError.ErrSyntax)
      else (hexValueFrom n s, none) := by
  induction s generalizing n with
  | nil =>
    have h0 : ¬ 65535 < n := by omega
    simp [parseUintLoop, leadingHex, hexValueFrom, h0]
  | cons c cs ih =>
    rw [parseUintLoop_step, digit16_eq]
    cases hd : hexDigitValue c with
    | none =>
      have hl : leadingHex (c :: cs) = [] := by
        simp [leadingHex, List.takeWhile, isHexDigit, hd]
      have h0 : ¬ 65535 < n := by omega
      simp [hl, hexValueFrom, h0]
    | some d =>
      have hd16 := hexDigitValue_lt c d hd
      have hl : leadingHex (c :: cs) = c :: leadingHex cs := by
        simp [leadingHex, List.takeWhile, isHexDigit, hd]
      have hv : ∀ l, hexValueFrom n (c :: l) = hexValueFrom (16 * n + d) l := by
        intro l
        simp [hexValueFrom, hd]
      have e1 : (n * 16 % 2 ^ 64 + d) % 2 ^ 64 = 16 * n + d := by omega
      have e2 : n * 16 % 2 ^ 64 = 16 * n := by omega
      dsimp only
      rw [e1, e2, hl, hv, hv]
      have hlt : ¬ n ≥ 2 ^ 60 := by omega
      rw [if_neg hlt]
      by_cases hbig : 16 * n + d > 65535
      · have := le_hexValueFrom (leadingHex cs) (16 * n + d)
        rw [if_pos (Or.inr hbig), if_pos (by omega)]
      · rw [if_neg (by omega), ih (16 * n + d) (by omega)]
        simp

/-- What `strconv.ParseUint(s, 16, 16)` returns, for every string. -/
theorem ParseUint_16_16 (s : List Char) :
    ParseUint s 16 16 =
      if s = [] then (0, some NumError.ErrSyntax)
      else if hexValue (leadingHex s) > 65535 then (65535, some NumError.ErrRange)
      else if leadingHex s ≠ s then (0, some NumError.ErrSyntax)
      else (hexValue s, none) := by
  unfold ParseUint
  by_cases hs : s = []
  · simp [hs]
  · rw [if_neg hs, if_neg hs, if_neg (by decide), if_neg (by decide)]
    have := parseUintLoop_eq s 0 (by decide)
    simpa [hexValue] using this

theorem ParseUint_16_16_le (s : List Char) : (ParseUint s 16 16).1 ≤ 65535 := by
  rw [ParseUint_16_16]
  split
  · simp
  · split
    · simp
    · split
      · simp
      · rename_i h1 h2
        simp only [ne_eq, Decidable.not_not] at h2
        rw [h2] at h1
        simp only
        omega

/-- The identifier the program takes from one field of the annotation. -/
theorem uint16_ParseUint (s : List Char) : uint16 (ParseUint s 16 16).1 = fieldID s := by
  have hle := ParseUint_16_16_le s
  have : uint16 (ParseUint s 16 16).1 = (ParseUint s 16 16).1 := by
    unfold uint16
    omega
  rw [this, ParseUint_16_16]
  unfold fieldID
  split
  · rfl
  · split
    · rfl
    · split <;> rfl

/-! Lemmas on the program -/

theorem colon_not_hex : isHexDigit ':' = false := by decide

theorem not_mem_of_all_hex (s : List Char) (h : ∀ c ∈ s, isHexDigit c = true) : ':' ∉ s := by
  intro hmem
  have := h _ hmem
  rw [colon_not_hex] at this
  cases this

theorem leadingHex_of_all_hex (s : List Char) (h : ∀ c ∈ s, isHexDigit c = true) :
    leadingHex s = s :=
  List.takeWhile_eq_self_iff.2 h

theorem leadingHex_append (pre post : List Char) (c : Char)
    (hpre : ∀ x ∈ pre, isHexDigit x = true) (hc : isHexDigit c = false) :
    leadingHex (pre ++ c :: post) = pre := by
  unfold leadingHex
  rw [List.takeWhile_append_of_pos hpre, List.takeWhile_cons_of_neg (by simp [hc])]
  simp

theorem fieldID_of_numeral (s : List Char) (v : Nat) (h : IsHexNumeral s v) (hv : v < 2 ^ 16) :
    fieldID s = v := by
  obtain ⟨hne, hall, hval⟩ := h
  unfold fieldID
  rw [if_neg hne, leadingHex_of_all_hex s hall, hval, if_neg (by omega), if_neg (by simp)]

theorem parseVendorProduct_pieces (annotationValue : String) (a b : List Char)
    (rest : List (List Char)) (h : stringsSplit ':' annotationValue.toList = a :: b :: rest) :
    parseVendorProduct annotationValue = Outcome.ret (fieldID a, fieldID b) := by
  unfold parseVendorProduct
  simp only [h, uint16_ParseUint]

theorem stringsSplit_fields (a b tail : List Char) (ha : ':' ∉ a) (hb : ':' ∉ b)
    (htail : tail = [] ∨ ∃ t, tail = ':' :: t) :
    ∃ rest, stringsSplit ':' (a ++ ':' :: (b ++ tail)) = a :: b :: rest := by
  rw [stringsSplit_append ':' a _ ha]
  rcases htail with rfl | ⟨t, rfl⟩
  · exact ⟨[], by rw [List.append_nil, stringsSplit_of_not_mem ':' b hb]⟩
  · exact ⟨stringsSplit ':' t, by rw [stringsSplit_append ':' b t hb]⟩

theorem onDefineDomain_of_parse {F : Type} (env : Env F) (vmiJSON domainXML : Bytes)
    (vmiSpec : VirtualMachineInstance) (annotationValue : String) (vid pid : ID)
    (hdec : env.jsonUnmarshal vmiJSON = Except.ok vmiSpec)
    (hann : vmiSpec.GetAnnotations.lookup vendorProductAnnotation = some annotationValue)
    (hparse : parseVendorProduct annotationValue = Outcome.ret (vid, pid)) :
    onDefineDomain env vmiJSON domainXML = attachDevice env domainXML vid pid := by
  unfold onDefineDomain
  simp only [hdec, hann, hparse]

theorem defers_eq (devs : List Device) (stack : List Event) :
    devs.foldl (fun stack d => Event.DeviceClose d.handle :: stack) stack =
      (devs.map Device.handle).reverse.map Event.DeviceClose ++ stack := by
  induction devs generalizing stack with
  | nil => rfl
  | cons d ds ih => simp [ih]

theorem attachDevice_events {F : Type} (env : Env F) (domainXML : Bytes) (vid pid : ID) :
    (attachDevice env domainXML vid pid).events =
      Event.NewContext ::
        Event.OpenDevices ((env.OpenDevices (opener vid pid)).1.map Device.handle) ::
          (((env.OpenDevices (opener vid pid)).1.map Device.handle).reverse.map
            Event.DeviceClose ++ [Event.ContextClose]) := by
  unfold attachDevice
  rcases env.OpenDevices (opener vid pid) with ⟨devs, err⟩
  simp [defers_eq]

theorem attachDevice_fallback {F : Type} (env : Env F) (domainXML : Bytes) (vid pid : ID)
    (h : (env.OpenDevices (opener vid pid)).2 ≠ none ∨ (env.OpenDevices (opener vid pid)).1 = []) :
    (attachDevice env domainXML vid pid).outcome = Outcome.ret (domainXML, none) := by
  unfold attachDevice
  generalize env.OpenDevices (opener vid pid) = od at h
  obtain ⟨devs, err⟩ := od
  rcases h with h | h
  · cases err with
    | none => exact absurd rfl h
    | some e => simp
  · simp only at h
    subst h
    cases err <;> simp

theorem attachDevice_first {F : Type} (env : Env F) (domainXML : Bytes) (vid pid : ID)
    (dev : Device) (rest : List Device) (devices : DomainDeviceList F)
    (henum : env.OpenDevices (opener vid pid) = (dev :: rest, none))
    (hdev : (env.xmlUnmarshal domainXML).1.Devices = some devices) :
    (attachDevice env domainXML vid pid).outcome =
      Outcome.ret (marshalOrOriginal env domainXML
        { (env.xmlUnmarshal domainXML).1 with
          Devices := some { devices with Hostdevs := devices.Hostdevs ++ [usbDevice F dev] } }) := by
  unfold attachDevice
  simp [henum, appendHostdev, hdev]

theorem opener_eq (vid pid : ID) :
    opener vid pid = fun desc => decide (desc.Vendor = vid ∧ desc.Product = pid) := by
  funext desc
  rw [Bool.decide_and]
  rfl

theorem attachDevice_success {F : Type} (env : Env F) (domainXML : Bytes) (vid pid : ID)
    (dev : Device) (rest : List Device) (devices : DomainDeviceList F)
    (henum : env.OpenDevices (opener vid pid) = (dev :: rest, none))
    (hdev : (env.xmlUnmarshal domainXML).1.Devices = some devices) :
    (∀ newDomainXML,
      env.xmlMarshal
          { (env.xmlUnmarshal domainXML).1 with
            Devices := some { devices with Hostdevs := devices.Hostdevs ++ [usbDevice F dev] } } =
        Except.ok newDomainXML →
      (attachDevice env domainXML vid pid).outcome = Outcome.ret (newDomainXML, none)) ∧
    (∀ err,
      env.xmlMarshal
          { (env.xmlUnmarshal domainXML).1 with
            Devices := some { devices with Hostdevs := devices.Hostdevs ++ [usbDevice F dev] } } =
        Except.error err →
      (attachDevice env domainXML vid pid).outcome = Outcome.ret (domainXML, none)) := by
  rw [attachDevice_first env domainXML vid pid dev rest devices henum hdev]
  constructor
  · intro b hb
    simp only [marshalOrOriginal, hb]
  · intro e he
    simp only [marshalOrOriginal, he]

theorem diff_self_nil {α : Type} [DecidableEq α] (l : List α) : l.diff l = [] := by
  induction l with
  | nil => rfl
  | cons a l ih => simp [List.diff_cons, ih]

theorem openHandles_closes (l : List Nat) (tail : List Event) (open0 : List Nat) :
    openHandles (l.map Event.DeviceClose ++ tail) open0 = openHandles tail (open0.diff l) := by
  induction l generalizing open0 with
  | nil => simp
  | cons h hs ih => simp [openHandles, ih, List.diff_cons]

theorem contextOpen_closes (l : List Nat) (tail : List Event) (ctx0 : Bool) :
    contextOpen (l.map Event.DeviceClose ++ tail) ctx0 = contextOpen tail ctx0 := by
  induction l generalizing ctx0 with
  | nil => simp
  | cons h hs ih => simp [contextOpen, ih]

theorem uint_of_nonneg (x : Int) (h0 : 0 ≤ x) (h1 : x < 2 ^ 63) : (uint x : Int) = x := by
  unfold uint
  have : x % 2 ^ 64 = x := Int.emod_eq_of_lt h0 (by omega)
  rw [this]
  exact Int.toNat_of_nonneg h0

/-! Properties of the callbacks -/

/-- C1. When the VM specification decodes and its annotations do not contain the key
`usbredir.vm.kubevirt.io/vendorProduct`, `onDefineDomain` returns exactly the input
descriptor bytes with a nil error, whatever the descriptor bytes are, and does nothing
to the USB library: no context is opened and no device enumerated. -/
theorem onDefineDomain_no_annotation {F : Type} (env : Env F) (vmiJSON domainXML : Bytes)
    (vmiSpec : VirtualMachineInstance)
    (hdec : env.jsonUnmarshal vmiJSON = Except.ok vmiSpec)
    (habs : ∀ value, ( vendorProductAnnotation, value) ∉ vmiSpec.GetAnnotations) :
    onDefineDomain env vmiJSON domainXML =
      { outcome := Outcome.ret (domainXML, none), events := [] } := by
  have hnone : vmiSpec.GetAnnotations.lookup vendorProductAnnotation = none := by
    rw [List.lookup_eq_none_iff]
    intro p hp
    rcases p with ⟨k, v⟩
    simp only [bne_iff_ne, ne_eq]
    intro hk
    exact habs v (hk ▸ hp)
  unfold onDefineDomain
  simp only [hdec, hnone]

/-- Witness of C1: a VMI with one unrelated annotation, a descriptor of three bytes,
and a device on the bus that is never looked at. -/
theorem onDefineDomain_no_annotation_witness :
    onDefineDomain
        (exampleEnv [("kubevirt.io/domain", "vm")] emptyDevices countEncoder [deviceAt2_5] none)
        [1] [60, 97, 62] =
      { outcome := Outcome.ret ([60, 97, 62], none), events := [] } :=
  onDefineDomain_no_annotation _ [1] [60, 97, 62] { Annotations := [("kubevirt.io/domain", "vm")] }
    rfl (fun value h => by
      simp [VirtualMachineInstance.GetAnnotations, vendorProductAnnotation] at h)

/-- C2 (the code departs from it). With the annotation value `1234beef`, which has
no `:`, `onDefineDomain` panics on `vpid[1]` before anything is enumerated; and with a
well-formed annotation, a matching device and a descriptor that decodes without a
devices section, it panics on `domainSpec.Devices.Hostdevs`.  Neither call returns a
descriptor. -/
theorem onDefineDomain_panics :
    (onDefineDomain
        (exampleEnv (annotated "1234beef") emptyDevices countEncoder [deviceAt2_5] none)
        [1] [60, 97, 62]).outcome =
      Outcome.panic "index out of range [1] with length 1" ∧
    (onDefineDomain
        (exampleEnv (annotated "1234:beef") noDevices countEncoder [deviceAt2_5] none)
        [1] [60, 97, 62]).outcome =
      Outcome.panic "invalid memory address or nil pointer dereference" := by
  constructor <;> rfl

/-- C3. When the VM specification decodes and carries a selection annotation of the
form `a:b`, and the enumeration the program runs reports an error or opens no device,
`onDefineDomain` returns the input descriptor bytes unchanged with a nil error. -/
theorem onDefineDomain_enumeration_fallback {F : Type} (env : Env F)
    (vmiJSON domainXML : Bytes) (vmiSpec : VirtualMachineInstance) (annotationValue : String)
    (a b : List Char)
    (hdec : env.jsonUnmarshal vmiJSON = Except.ok vmiSpec)
    (hann : vmiSpec.GetAnnotations.lookup vendorProductAnnotation = some annotationValue)
    (hform : annotationValue.toList = a ++ ':' :: b)
    (henum : ∀ vid pid, parseVendorProduct annotationValue = Outcome.ret (vid, pid) →
      (env.OpenDevices (opener vid pid)).2 ≠ none ∨
        (env.OpenDevices (opener vid pid)).1 = []) :
    (onDefineDomain env vmiJSON domainXML).outcome = Outcome.ret (domainXML, none) := by
  have hmem : ':' ∈ annotationValue.toList := by
    rw [hform]
    simp
  obtain ⟨x, y, rest, hsplit⟩ := stringsSplit_of_mem ':' annotationValue.toList hmem
  have hparse := parseVendorProduct_pieces annotationValue x y rest hsplit
  rw [onDefineDomain_of_parse env vmiJSON domainXML vmiSpec annotationValue _ _ hdec hann hparse]
  exact attachDevice_fallback env domainXML _ _ (henum _ _ hparse)

/-- Witness of C3: the annotation `1234:beef` on a host whose only device has another
vendor, so that enumeration succeeds with no device. -/
theorem onDefineDomain_enumeration_fallback_witness :
    (onDefineDomain
        (exampleEnv (annotated "1234:beef") emptyDevices countEncoder [deviceFFFF] none)
        [1] [60, 97, 62]).outcome =
      Outcome.ret ([60, 97, 62], none) :=
  onDefineDomain_enumeration_fallback _ [1] [60, 97, 62]
    { Annotations := annotated "1234:beef" } "1234:beef" "1234".toList "beef".toList
    rfl rfl rfl
    (fun vid pid h => by
      have h2 : parseVendorProduct "1234:beef" = Outcome.ret (0x1234, 0xbeef) := by rfl
      rw [h2] at h
      injection h with h
      injection h with hv hp
      subst hv
      subst hp
      exact Or.inr (by rfl))

/-- C4. When enumeration succeeds with a non-empty list of devices and the descriptor
decodes with a devices section, the entry `onDefineDomain` adds is a USB-subsystem
host-device entry whose source address has the bus number and the address number of
the first device of the list (all its other fields are zero values): the descriptor
handed to `xml.Marshal` is the decoded one with that entry appended, and when
`xml.Marshal` returns bytes for it those bytes are returned with a nil error (when it
fails, the input bytes are).  The devices after the first do not influence the
outcome: any other enumeration result with the same first device gives the same
outcome.  Bus and address numbers are non-negative Go `int`s. -/
theorem onDefineDomain_first_device {F : Type} (env : Env F) (vmiJSON domainXML : Bytes)
    (vmiSpec : VirtualMachineInstance) (annotationValue : String) (vid pid : ID)
    (dev : Device) (rest : List Device) (devices : DomainDeviceList F)
    (hdec : env.jsonUnmarshal vmiJSON = Except.ok vmiSpec)
    (hann : vmiSpec.GetAnnotations.lookup vendorProductAnnotation = some annotationValue)
    (hparse : parseVendorProduct annotationValue = Outcome.ret (vid, pid))
    (henum : env.OpenDevices (opener vid pid) = (dev :: rest, none))
    (hdev : (env.xmlUnmarshal domainXML).1.Devices = some devices)
    (hbus : 0 ≤ dev.Desc.Bus ∧ dev.Desc.Bus < 2 ^ 63)
    (haddr : 0 ≤ dev.Desc.Address ∧ dev.Desc.Address < 2 ^ 63) :
    ∃ bus device : Nat,
      (bus : Int) = dev.Desc.Bus ∧ (device : Int) = dev.Desc.Address ∧
      (∀ newDomainXML,
        env.xmlMarshal
            { (env.xmlUnmarshal domainXML).1 with
              Devices := some
                { devices with
                  Hostdevs := devices.Hostdevs ++
                    [{ SubsysUSB := some
                         { Source := some
                             { GuestReset := ""
                               Address := some
                                 { Bus := some bus, Port := "", Device := some device } } }
                       others := none }] } } = Except.ok newDomainXML →
        (onDefineDomain env vmiJSON domainXML).outcome = Outcome.ret (newDomainXML, none)) ∧
      (∀ err,
        env.xmlMarshal
            { (env.xmlUnmarshal domainXML).1 with
              Devices := some
                { devices with
                  Hostdevs := devices.Hostdevs ++
                    [{ SubsysUSB := some
                         { Source := some
                             { GuestReset := ""
                               Address := some
                                 { Bus := some bus, Port := "", Device := some device } } }
                       others := none }] } } = Except.error err →
        (onDefineDomain env vmiJSON domainXML).outcome = Outcome.ret (domainXML, none)) ∧
      (onDefineDomain env vmiJSON domainXML).outcome =
        Outcome.ret (marshalOrOriginal env domainXML
          { (env.xmlUnmarshal domainXML).1 with
            Devices := some
              { devices with
                Hostdevs := devices.Hostdevs ++
                  [{ SubsysUSB := some
                       { Source := some
                           { GuestReset := ""
                             Address := some
                               { Bus := some bus, Port := "", Device := some device } } }
                     others := none }] } }) ∧
      ∀ (others : List Device) (enumerate : (DeviceDesc → Bool) → List Device × Option Error),
        enumerate (opener vid pid) = (dev :: others, none) →
        (onDefineDomain { env with OpenDevices := enumerate } vmiJSON domainXML).outcome =
          (onDefineDomain env vmiJSON domainXML).outcome := by
  have hrun := onDefineDomain_of_parse env vmiJSON domainXML vmiSpec annotationValue vid pid
    hdec hann hparse
  have hsucc := attachDevice_success env domainXML vid pid dev rest devices henum hdev
  refine ⟨uint dev.Desc.Bus, uint dev.Desc.Address,
    uint_of_nonneg _ hbus.1 hbus.2, uint_of_nonneg _ haddr.1 haddr.2, ?_, ?_, ?_, ?_⟩
  · intro b hb
    rw [hrun]
    exact hsucc.1 b hb
  · intro e he
    rw [hrun]
    exact hsucc.2 e he
  · rw [hrun, attachDevice_first env domainXML vid pid dev rest devices henum hdev]
    rfl
  · intro others enumerate henum2
    rw [hrun, attachDevice_first env domainXML vid pid dev rest devices henum hdev,
      onDefineDomain_of_parse { env with OpenDevices := enumerate } vmiJSON domainXML vmiSpec
        annotationValue vid pid hdec hann hparse,
      attachDevice_first { env with OpenDevices := enumerate } domainXML vid pid dev others
        devices henum2 hdev]
    rfl

/-- Witness of C4: the annotation `1234:beef`, one matching device at bus 2, address 5
followed by a second matching device at bus 3, address 1, and a descriptor with an
empty devices section.  The encoder writes the bus and device numbers of the entries:
the bytes returned are `[2, 5]`. -/
theorem onDefineDomain_first_device_witness :
    (onDefineDomain
        (exampleEnv (annotated "1234:beef") emptyDevices addressEncoder
          [deviceFFFF, deviceAt2_5, deviceAt3_1] none)
        [1] [60, 97, 62]).outcome = Outcome.ret ([2, 5], none) := by
  obtain ⟨bus, device, h1, h2, h3, _⟩ :=
    onDefineDomain_first_device
      (exampleEnv (annotated "1234:beef") emptyDevices addressEncoder
        [deviceFFFF, deviceAt2_5, deviceAt3_1] none)
      [1] [60, 97, 62] { Annotations := annotated "1234:beef" } "1234:beef" 0x1234 0xbeef
      deviceAt2_5 [deviceAt3_1] { Hostdevs := [], others := none }
      rfl rfl rfl rfl rfl (by decide) (by decide)
  have hb : bus = 2 := by
    have : (bus : Int) = 2 := h1
    omega
  have hd : device = 5 := by
    have : (device : Int) = 5 := h2
    omega
  subst hb
  subst hd
  exact h3 [2, 5] rfl

/-- C5. On the success path (enumeration succeeds with at least one device, the
descriptor decodes with a devices section) the descriptor that is encoded differs from
the decoded one only in its host-device list, which is the original list with the new
entry appended at the end: one entry longer, every earlier entry unchanged at its
position, and the new entry counted once more than before, so it is added even when an
equal entry is already there. -/
theorem onDefineDomain_appends_hostdev {F : Type} [DecidableEq F] (env : Env F)
    (vmiJSON domainXML : Bytes)
    (vmiSpec : VirtualMachineInstance) (annotationValue : String) (vid pid : ID)
    (dev : Device) (rest : List Device) (devices : DomainDeviceList F)
    (hdec : env.jsonUnmarshal vmiJSON = Except.ok vmiSpec)
    (hann : vmiSpec.GetAnnotations.lookup vendorProductAnnotation = some annotationValue)
    (hparse : parseVendorProduct annotationValue = Outcome.ret (vid, pid))
    (henum : env.OpenDevices (opener vid pid) = (dev :: rest, none))
    (hdev : (env.xmlUnmarshal domainXML).1.Devices = some devices) :
    ∃ (mutated : Domain F) (devices' : DomainDeviceList F),
      (onDefineDomain env vmiJSON domainXML).outcome =
        Outcome.ret (marshalOrOriginal env domainXML mutated) ∧
      mutated.others = (env.xmlUnmarshal domainXML).1.others ∧
      mutated.Devices = some devices' ∧
      devices'.others = devices.others ∧
      devices'.Hostdevs = devices.Hostdevs ++ [usbDevice F dev] ∧
      devices'.Hostdevs.length = devices.Hostdevs.length + 1 ∧
      (∀ i, i < devices.Hostdevs.length → devices'.Hostdevs[i]? = devices.Hostdevs[i]?) ∧
      devices'.Hostdevs[devices.Hostdevs.length]? = some (usbDevice F dev) ∧
      devices'.Hostdevs.count (usbDevice F dev) =
        devices.Hostdevs.count (usbDevice F dev) + 1 ∧
      ∀ entry, entry ≠ usbDevice F dev →
        devices'.Hostdevs.count entry = devices.Hostdevs.count entry := by
  refine ⟨{ (env.xmlUnmarshal domainXML).1 with
            Devices := some { devices with Hostdevs := devices.Hostdevs ++ [usbDevice F dev] } },
    { devices with Hostdevs := devices.Hostdevs ++ [usbDevice F dev] }, ?_, rfl, rfl, rfl, rfl,
    ?_, ?_, ?_, ?_, ?_⟩
  · rw [onDefineDomain_of_parse env vmiJSON domainXML vmiSpec annotationValue vid pid hdec hann hparse,
      attachDevice_first env domainXML vid pid dev rest devices henum hdev]
  · simp
  · intro i hi
    exact List.getElem?_append_left hi
  · simp
  · simp
  · intro entry hne
    have : ¬ usbDevice F dev = entry := fun e => hne e.symm
    simp [List.count_singleton, this]

/-- Witness of C5: the descriptor already holds an entry equal to the one that is
added; the encoder, which counts the entries, reports two. -/
theorem onDefineDomain_appends_hostdev_witness :
    ∃ (mutated : Domain Unit) (devices' : DomainDeviceList Unit),
      (onDefineDomain
          (exampleEnv (annotated "1234:beef")
            { Devices := some { Hostdevs := [usbDevice Unit deviceAt2_5], others := none }
              others := none }
            countEncoder [deviceAt2_5] none)
          [1] [60, 97, 62]).outcome = Outcome.ret ([2], none) ∧
      mutated.Devices = some devices' ∧
      devices'.Hostdevs = [usbDevice Unit deviceAt2_5, usbDevice Unit deviceAt2_5] := by
  obtain ⟨mutated, devices', h1, _, h3, _, h5, _⟩ :=
    onDefineDomain_appends_hostdev
      (exampleEnv (annotated "1234:beef")
        { Devices := some { Hostdevs := [usbDevice Unit deviceAt2_5], others := none }
          others := none }
        countEncoder [deviceAt2_5] none)
      [1] [60, 97, 62] { Annotations := annotated "1234:beef" } "1234:beef" 0x1234 0xbeef
      deviceAt2_5 [] { Hostdevs := [usbDevice Unit deviceAt2_5], others := none }
      rfl rfl rfl rfl rfl
  refine ⟨mutated, devices', ?_, h3, h5⟩
  rw [h1]
  simp [marshalOrOriginal, exampleEnv, countEncoder, h3, h5]

/-- C6, as the claim states it, fails. The field `12345` consists of hexadecimal
digits and denotes a value above `0xFFFF`; the identifier taken from it is `0xFFFF`,
not 0: with the annotation `12345:beef` the device with vendor `0xffff` is the one
that is opened and attached, and the device with vendor 0 is not. -/
theorem malformed_field_not_zero :
    parseVendorProduct "12345:beef" = Outcome.ret (0xFFFF, 0xbeef) ∧
    parseVendorProduct "12345:beef" ≠ Outcome.ret (0, 0xbeef) ∧
    onDefineDomain
        (exampleEnv (annotated "12345:beef") emptyDevices countEncoder
          [deviceZero, deviceFFFF] none)
        [1] [60, 97, 62] =
      { outcome := Outcome.ret ([1], none)
        events := [Event.NewContext, Event.OpenDevices [deviceFFFF.handle],
          Event.DeviceClose deviceFFFF.handle, Event.ContextClose] } := by
  refine ⟨by rfl, by decide, by rfl⟩

/-- C6, amended. Let `a` and `b` be the first two fields of the annotation, that is
the pieces before and after its first `:`, `b` ending at the next `:` if there is one.
No error is signalled: the call goes on to enumeration with the identifiers `fieldID a`
and `fieldID b`, each field being read on its own.  For a field `s`:
an empty field gives 0; a field of hexadecimal digits denoting at most `0xFFFF` gives
that value; a field of hexadecimal digits denoting more than `0xFFFF` gives `0xFFFF`;
a field whose first character that is not a hexadecimal digit comes after digits
denoting at most `0xFFFF` (or comes first) gives 0, and after digits denoting more
than `0xFFFF` it gives `0xFFFF`. -/
theorem onDefineDomain_field_identifiers {F : Type} (env : Env F)
    (vmiJSON domainXML : Bytes) (vmiSpec : VirtualMachineInstance) (annotationValue : String)
    (a b tail : List Char)
    (hdec : env.jsonUnmarshal vmiJSON = Except.ok vmiSpec)
    (hann : vmiSpec.GetAnnotations.lookup vendorProductAnnotation = some annotationValue)
    (hform : annotationValue.toList = a ++ ':' :: (b ++ tail))
    (ha : ':' ∉ a) (hb : ':' ∉ b) (htail : tail = [] ∨ ∃ t, tail = ':' :: t) :
    parseVendorProduct annotationValue = Outcome.ret (fieldID a, fieldID b) ∧
    onDefineDomain env vmiJSON domainXML = attachDevice env domainXML (fieldID a) (fieldID b) ∧
    fieldID [] = 0 ∧
    (∀ s, s ≠ [] → (∀ c ∈ s, isHexDigit c = true) → hexValue s ≤ 0xFFFF →
      fieldID s = hexValue s) ∧
    (∀ s, (∀ c ∈ s, isHexDigit c = true) → hexValue s > 0xFFFF → fieldID s = 0xFFFF) ∧
    (∀ pre c post, (∀ x ∈ pre, isHexDigit x = true) → isHexDigit c = false →
      hexValue pre ≤ 0xFFFF → fieldID (pre ++ c :: post) = 0) ∧
    (∀ pre c post, (∀ x ∈ pre, isHexDigit x = true) → isHexDigit c = false →
      hexValue pre > 0xFFFF → fieldID (pre ++ c :: post) = 0xFFFF) := by
  obtain ⟨rest, hsplit⟩ := stringsSplit_fields a b tail ha hb htail
  rw [← hform] at hsplit
  have hparse := parseVendorProduct_pieces annotationValue a b rest hsplit
  refine ⟨hparse,
    onDefineDomain_of_parse env vmiJSON domainXML vmiSpec annotationValue _ _ hdec hann hparse,
    rfl, ?_, ?_, ?_, ?_⟩
  · intro s hne hall hle
    unfold fieldID
    rw [if_neg hne, leadingHex_of_all_hex s hall, if_neg (by omega), if_neg (by simp)]
  · intro s hall hgt
    have hne : s ≠ [] := by
      rintro rfl
      simp [hexValue, hexValueFrom] at hgt
    unfold fieldID
    rw [if_neg hne, leadingHex_of_all_hex s hall, if_pos hgt]
  · intro pre c post hpre hc hle
    unfold fieldID
    rw [if_neg (by simp), leadingHex_append pre post c hpre hc, if_neg (by omega), if_pos]
    intro h
    have := congrArg List.length h
    simp at this
  · intro pre c post hpre hc hgt
    unfold fieldID
    rw [if_neg (by simp), leadingHex_append pre post c hpre hc, if_pos hgt]

/-- Witness of C6 amended: the annotation `12345:beef`. -/
theorem onDefineDomain_field_identifiers_witness :
    parseVendorProduct "12345:beef" =
      Outcome.ret (fieldID "12345".toList, fieldID "beef".toList) ∧
    fieldID "12345".toList = 0xFFFF ∧ fieldID "beef".toList = 0xbeef :=
  ⟨(onDefineDomain_field_identifiers
      (exampleEnv (annotated "12345:beef") emptyDevices countEncoder [deviceFFFF] none)
      [1] [60, 97, 62] { Annotations := annotated "12345:beef" } "12345:beef"
      "12345".toList "beef".toList [] rfl rfl rfl (by decide) (by decide) (Or.inl rfl)).1,
    by decide, by decide⟩

/-- C7. For 16-bit values `v` and `p` and an annotation made of a hexadecimal numeral
for `v`, a `:` and a hexadecimal numeral for `p`, `onDefineDomain` parses the pair
`(v, p)` and enumerates once, and the filter it hands to the host's `OpenDevices` is
the function that accepts a device descriptor exactly when its vendor is `v` and its
product is `p`: what the run does to the USB library and what it returns are
determined by what the host answers to that filter.  It opens a context, receives the
devices the host opened for that filter, closes them and the context; with an error or
no device it returns the input bytes; otherwise it attaches the first device the host
returned for that filter.  On a host that opens what the filter accepts, the devices
opened are exactly the devices on the bus with vendor `v` and product `p`. -/
theorem onDefineDomain_parses_hex_pair {F : Type} (env : Env F)
    (vmiJSON domainXML : Bytes) (vmiSpec : VirtualMachineInstance) (annotationValue : String)
    (sv sp : List Char) (v p : Nat)
    (hv : v < 2 ^ 16) (hp : p < 2 ^ 16)
    (hsv : IsHexNumeral sv v) (hsp : IsHexNumeral sp p)
    (hform : annotationValue.toList = sv ++ ':' :: sp)
    (hdec : env.jsonUnmarshal vmiJSON = Except.ok vmiSpec)
    (hann : vmiSpec.GetAnnotations.lookup vendorProductAnnotation = some annotationValue) :
    parseVendorProduct annotationValue = Outcome.ret (v, p) ∧
    onDefineDomain env vmiJSON domainXML = attachDevice env domainXML v p ∧
    (∀ desc : DeviceDesc, opener v p desc = true ↔ desc.Vendor = v ∧ desc.Product = p) ∧
    (onDefineDomain env vmiJSON domainXML).events =
      Event.NewContext ::
        Event.OpenDevices
          ((env.OpenDevices
            (fun desc => decide (desc.Vendor = v ∧ desc.Product = p))).1.map Device.handle) ::
          (((env.OpenDevices
            (fun desc => decide (desc.Vendor = v ∧ desc.Product = p))).1.map
              Device.handle).reverse.map Event.DeviceClose ++ [Event.ContextClose]) ∧
    ((env.OpenDevices (fun desc => decide (desc.Vendor = v ∧ desc.Product = p))).2 ≠ none ∨
        (env.OpenDevices (fun desc => decide (desc.Vendor = v ∧ desc.Product = p))).1 = [] →
      (onDefineDomain env vmiJSON domainXML).outcome = Outcome.ret (domainXML, none)) ∧
    (∀ (dev : Device) (rest : List Device) (devices : DomainDeviceList F)
        (newDomainXML : Bytes),
      env.OpenDevices (fun desc => decide (desc.Vendor = v ∧ desc.Product = p)) =
        (dev :: rest, none) →
      (env.xmlUnmarshal domainXML).1.Devices = some devices →
      env.xmlMarshal
          { (env.xmlUnmarshal domainXML).1 with
            Devices := some { devices with Hostdevs := devices.Hostdevs ++ [usbDevice F dev] } } =
        Except.ok newDomainXML →
      (onDefineDomain env vmiJSON domainXML).outcome = Outcome.ret (newDomainXML, none)) ∧
    (∀ (bus : List Device) (err : Option Error),
      (onDefineDomain { env with OpenDevices := scanBus bus err } vmiJSON domainXML).events =
        Event.NewContext ::
          Event.OpenDevices
            ((bus.filter
              (fun d => decide (d.Desc.Vendor = v ∧ d.Desc.Product = p))).map Device.handle) ::
            (((bus.filter
              (fun d => decide (d.Desc.Vendor = v ∧ d.Desc.Product = p))).map
                Device.handle).reverse.map Event.DeviceClose ++ [Event.ContextClose])) := by
  have hcv := not_mem_of_all_hex sv hsv.2.1
  have hcp := not_mem_of_all_hex sp hsp.2.1
  have hsplit : stringsSplit ':' annotationValue.toList = sv :: sp :: [] := by
    rw [hform, stringsSplit_append ':' sv sp hcv, stringsSplit_of_not_mem ':' sp hcp]
  have hparse : parseVendorProduct annotationValue = Outcome.ret (v, p) := by
    rw [parseVendorProduct_pieces annotationValue sv sp [] hsplit,
      fieldID_of_numeral sv v hsv hv, fieldID_of_numeral sp p hsp hp]
  have hopen : ∀ desc : DeviceDesc,
      opener v p desc = true ↔ desc.Vendor = v ∧ desc.Product = p := by
    intro desc
    simp [opener]
  have hrun := onDefineDomain_of_parse env vmiJSON domainXML vmiSpec annotationValue v p
    hdec hann hparse
  refine ⟨hparse, hrun, hopen, ?_, ?_, ?_, ?_⟩
  · rw [hrun, attachDevice_events, opener_eq]
  · intro h
    rw [← opener_eq] at h
    rw [hrun]
    exact attachDevice_fallback env domainXML v p h
  · intro dev rest devices newDomainXML henum hdev hok
    rw [← opener_eq] at henum
    rw [hrun]
    exact (attachDevice_success env domainXML v p dev rest devices henum hdev).1 _ hok
  · intro bus err
    rw [onDefineDomain_of_parse { env with OpenDevices := scanBus bus err } vmiJSON domainXML
        vmiSpec annotationValue v p hdec hann hparse,
      attachDevice_events, opener_eq]
    rfl

/-- Witness of C7: the annotation `1234:beef` on a bus with four devices, of which the
two with vendor `0x1234` and product `0xbeef` (handles 7 and 8) are opened, and no
other. -/
theorem onDefineDomain_parses_hex_pair_witness :
    parseVendorProduct "1234:beef" = Outcome.ret (0x1234, 0xbeef) ∧
    (onDefineDomain
        (exampleEnv (annotated "1234:beef") emptyDevices addressEncoder
          [deviceFFFF, deviceAt2_5, deviceZero, deviceAt3_1] none)
        [1] [60, 97, 62]).events =
      [Event.NewContext, Event.OpenDevices [7, 8], Event.DeviceClose 8,
        Event.DeviceClose 7, Event.ContextClose] :=
  let h := onDefineDomain_parses_hex_pair
    (exampleEnv (annotated "1234:beef") emptyDevices addressEncoder
      [deviceFFFF, deviceAt2_5, deviceZero, deviceAt3_1] none)
    [1] [60, 97, 62] { Annotations := annotated "1234:beef" } "1234:beef"
    "1234".toList "beef".toList 0x1234 0xbeef (by decide) (by decide)
    ⟨by decide, by decide, by decide⟩ ⟨by decide, by decide, by decide⟩ rfl rfl rfl
  ⟨h.1, h.2.2.2.1.trans (by decide)⟩

/-- C8. For every version string and every query, `infoServer.Info` returns a result
and a nil error, and the version list of the result is the one-element list holding
the version the server was built with, hence non-empty; the result does not depend on
the query.  `main` registers that server exactly when the version is not empty. -/
theorem infoServer_Info_versions (version : String) (params : Option InfoParams) :
    (∃ result, infoServer.Info { Version := version } params = (some result, none) ∧
      result.Versions = [version] ∧ result.Versions ≠ []) ∧
    (∀ params' : Option InfoParams,
      infoServer.Info { Version := version } params' =
        infoServer.Info { Version := version } params) ∧
    (mainInfoServer version = Outcome.ret { Version := version } ↔ version ≠ "") := by
  refine ⟨⟨_, rfl, rfl, by simp⟩, fun _ => rfl, ?_⟩
  unfold mainInfoServer
  by_cases h : version = ""
  · simp [h]
  · simp [h]

/-- C9. Whenever `onDefineDomain` reaches enumeration, what it does to the USB library
is: open a context, enumerate, close every device that enumeration returned (last
returned first), close the context.  This holds however the call is left: enumeration
error (with or without devices returned), no device, encoding failure, success, and
also a panic on the descriptor.  So every returned handle has been closed, no handle
is open and the context is closed when the call is left. -/
theorem onDefineDomain_closes_handles {F : Type} (env : Env F) (vmiJSON domainXML : Bytes)
    (vmiSpec : VirtualMachineInstance) (annotationValue : String) (vid pid : ID)
    (hdec : env.jsonUnmarshal vmiJSON = Except.ok vmiSpec)
    (hann : vmiSpec.GetAnnotations.lookup vendorProductAnnotation = some annotationValue)
    (hparse : parseVendorProduct annotationValue = Outcome.ret (vid, pid)) :
    (onDefineDomain env vmiJSON domainXML).events =
      Event.NewContext ::
        Event.OpenDevices ((env.OpenDevices (opener vid pid)).1.map Device.handle) ::
          (((env.OpenDevices (opener vid pid)).1.map Device.handle).reverse.map
            Event.DeviceClose ++ [Event.ContextClose]) ∧
    (∀ d ∈ (env.OpenDevices (opener vid pid)).1,
      Event.DeviceClose d.handle ∈ (onDefineDomain env vmiJSON domainXML).events) ∧
    openHandles (onDefineDomain env vmiJSON domainXML).events [] = [] ∧
    contextOpen (onDefineDomain env vmiJSON domainXML).events false = false := by
  have hev : (onDefineDomain env vmiJSON domainXML).events = _ :=
    (congrArg Run.events
      (onDefineDomain_of_parse env vmiJSON domainXML vmiSpec annotationValue vid pid hdec hann
        hparse)).trans (attachDevice_events env domainXML vid pid)
  refine ⟨hev, ?_, ?_, ?_⟩
  · intro d hd
    rw [hev]
    simp only [List.mem_cons, List.mem_append, List.mem_map, List.mem_reverse]
    exact Or.inr (Or.inr (Or.inl ⟨d.handle, ⟨d, hd, rfl⟩, rfl⟩))
  · rw [hev]
    simp only [openHandles, List.nil_append]
    rw [openHandles_closes, List.Perm.diff_left _ (List.reverse_perm _), diff_self_nil]
    rfl
  · rw [hev]
    simp only [contextOpen]
    rw [contextOpen_closes]
    rfl

/-- Witness of C9: enumeration returns two open devices together with an error; the
call falls back to the input bytes and both handles and the context are closed. -/
theorem onDefineDomain_closes_handles_witness :
    (onDefineDomain
        (exampleEnv (annotated "1234:beef") emptyDevices countEncoder
          [deviceAt2_5, deviceFFFF, deviceAt3_1] (some "libusb: i/o error"))
        [1] [60, 97, 62]).events =
      [Event.NewContext, Event.OpenDevices [7, 8], Event.DeviceClose 8,
        Event.DeviceClose 7, Event.ContextClose] :=
  (onDefineDomain_closes_handles
    (exampleEnv (annotated "1234:beef") emptyDevices countEncoder
      [deviceAt2_5, deviceFFFF, deviceAt3_1] (some "libusb: i/o error"))
    [1] [60, 97, 62] { Annotations := annotated "1234:beef" } "1234:beef" 0x1234 0xbeef
    rfl rfl rfl).1

/-- C10. Both protocol versions run the one function `onDefineDomain` on the two byte
strings of the request: each does to the USB library what `onDefineDomain` does;
when `onDefineDomain` returns bytes with a nil error each returns a result whose
`DomainXML` is exactly those bytes, with a nil error; when it returns an error each
returns no result and that error; when it panics each panics alike.  Hence for the
same inputs on the same host the two versions return the same descriptor. -/
theorem OnDefineDomain_versions_agree {F : Type} (env : Env F) (vmiJSON domainXML : Bytes) :
    (v1alpha1Server.OnDefineDomain env (some { Vmi := vmiJSON, DomainXML := domainXML })).events
        = (onDefineDomain env vmiJSON domainXML).events ∧
    (v1alpha2Server.OnDefineDomain env (some { Vmi := vmiJSON, DomainXML := domainXML })).events
        = (onDefineDomain env vmiJSON domainXML).events ∧
    (∀ newDomainXML, (onDefineDomain env vmiJSON domainXML).outcome =
        Outcome.ret (newDomainXML, none) →
      (v1alpha1Server.OnDefineDomain env
          (some { Vmi := vmiJSON, DomainXML := domainXML })).outcome =
        Outcome.ret (some { DomainXML := newDomainXML }, none) ∧
      (v1alpha2Server.OnDefineDomain env
          (some { Vmi := vmiJSON, DomainXML := domainXML })).outcome =
        Outcome.ret (some { DomainXML := newDomainXML }, none)) ∧
    (∀ newDomainXML err, (onDefineDomain env vmiJSON domainXML).outcome =
        Outcome.ret (newDomainXML, some err) →
      (v1alpha1Server.OnDefineDomain env
          (some { Vmi := vmiJSON, DomainXML := domainXML })).outcome =
        Outcome.ret (none, some err) ∧
      (v1alpha2Server.OnDefineDomain env
          (some { Vmi := vmiJSON, DomainXML := domainXML })).outcome =
        Outcome.ret (none, some err)) ∧
    (∀ msg, (onDefineDomain env vmiJSON domainXML).outcome = Outcome.panic msg →
      (v1alpha1Server.OnDefineDomain env
          (some { Vmi := vmiJSON, DomainXML := domainXML })).outcome = Outcome.panic msg ∧
      (v1alpha2Server.OnDefineDomain env
          (some { Vmi := vmiJSON, DomainXML := domainXML })).outcome = Outcome.panic msg) ∧
    (∀ r1 r2 e1 e2,
      (v1alpha1Server.OnDefineDomain env
          (some { Vmi := vmiJSON, DomainXML := domainXML })).outcome = Outcome.ret (r1, e1) →
      (v1alpha2Server.OnDefineDomain env
          (some { Vmi := vmiJSON, DomainXML := domainXML })).outcome = Outcome.ret (r2, e2) →
      r1.map V1alpha1Result.DomainXML = r2.map V1alpha2Result.DomainXML ∧ e1 = e2) := by
  unfold v1alpha1Server.OnDefineDomain v1alpha2Server.OnDefineDomain
  simp only [OnDefineDomainParams.GetVmi, OnDefineDomainParams.GetDomainXML]
  generalize onDefineDomain env vmiJSON domainXML = r
  obtain ⟨outcome, events⟩ := r
  cases outcome with
  | panic msg => simp
  | ret value =>
    obtain ⟨bytes, err⟩ := value
    cases err with
    | none =>
      simp only [Outcome.ret.injEq, Prod.mk.injEq, true_and, and_true, and_self, and_imp,
        forall_eq', reduceCtorEq, false_implies, implies_true, and_false]
      intro r1 r2 e1 e2 h1 h2 h3 h4
      subst h1 h2 h3 h4
      exact ⟨rfl, rfl⟩
    | some e =>
      simp only [Outcome.ret.injEq, Prod.mk.injEq, true_and, and_true, and_self, and_imp,
        forall_eq', reduceCtorEq, false_implies, implies_true, and_false, Option.some.injEq]
      refine ⟨fun _ _ _ h => h, ?_⟩
      intro r1 r2 e1 e2 h1 h2 h3 h4
      subst h1 h2 h3 h4
      exact ⟨rfl, rfl⟩

end UsbredirHook
